import Mathlib

/-!
Verification development for the Telegram keyword-forwarder bot
(sources: app/forwarder.py, app/messages.py, app/dedup.py, app/subscriptions.py,
app/queue.py, app/config.py, run.py).

The Python sources are embedded shallowly: SQLite tables become Lean lists,
stateful methods become pure functions from state to state, network calls are
resolved through explicit environment records that fix the outcome of each
call, and code that can raise returns Option or Except (or, where the source
swallows the exception, the swallowed path is embedded directly with a comment
pointing at the handler).
-/

set_option maxRecDepth 4000

/-! ## Byte-level helpers: UTF-8 and SHA-256

`DeduplicationStore._hash_message` is `hashlib.sha256(text.encode("utf-8")).hexdigest()`;
we embed both the UTF-8 encoder and SHA-256 itself, on `Nat` reduced mod 2^32. -/

/-- UTF-8 encoding of a single character (the semantics of `str.encode("utf-8")`). -/
def utf8BytesOfChar (c : Char) : List Nat :=
  let n := c.toNat
  if n < 0x80 then [n]
  else if n < 0x800 then
    [0xc0 ||| (n >>> 6), 0x80 ||| (n &&& 0x3f)]
  else if n < 0x10000 then
    [0xe0 ||| (n >>> 12), 0x80 ||| ((n >>> 6) &&& 0x3f), 0x80 ||| (n &&& 0x3f)]
  else
    [0xf0 ||| (n >>> 18), 0x80 ||| ((n >>> 12) &&& 0x3f),
     0x80 ||| ((n >>> 6) &&& 0x3f), 0x80 ||| (n &&& 0x3f)]

/-- UTF-8 bytes of a whole string. -/
def strBytes (s : String) : List Nat := (s.data.map utf8BytesOfChar).flatten

/-- Helper for `chunksOf`: `cnt` is the remaining capacity of the current chunk
(minus one) and `acc` holds the current chunk reversed. Structural recursion on
the input list so that the kernel can evaluate it. -/
def chunksAux (m : Nat) : Nat → List Nat → List Nat → List (List Nat)
  | _, acc, [] => if acc.isEmpty then [] else [acc.reverse]
  | 0, acc, x :: xs => (x :: acc).reverse :: chunksAux m m [] xs
  | cnt + 1, acc, x :: xs => chunksAux m cnt (x :: acc) xs

/-- Split a list into consecutive chunks of `m + 1` elements (last chunk may be short). -/
def chunksOf (m : Nat) (l : List Nat) : List (List Nat) := chunksAux m m [] l

/-- Truncate to a 32-bit word. -/
def w32 (x : Nat) : Nat := x % 4294967296

/-- 32-bit rotate right. -/
def rotr32 (n x : Nat) : Nat := w32 ((x >>> n) ||| (x <<< (32 - n)))

/-- The SHA-256 round constants. -/
def sha256K : List Nat :=
  [1116352408, 1899447441, 3049323471, 3921009573, 961987163, 1508970993,
   2453635748, 2870763221, 3624381080, 310598401, 607225278, 1426881987,
   1925078388, 2162078206, 2614888103, 3248222580, 3835390401, 4022224774,
   264347078, 604807628, 770255983, 1249150122, 1555081692, 1996064986,
   2554220882, 2821834349, 2952996808, 3210313671, 3336571891, 3584528711,
   113926993, 338241895, 666307205, 773529912, 1294757372, 1396182291,
   1695183700, 1986661051, 2177026350, 2456956037, 2730485921, 2820302411,
   3259730800, 3345764771, 3516065817, 3600352804, 4094571909, 275423344,
   430227734, 506948616, 659060556, 883997877, 958139571, 1322822218,
   1537002063, 1747873779, 1955562222, 2024104815, 2227730452, 2361852424,
   2428436474, 2756734187, 3204031479, 3329325298]

/-- Extend the 16 message-schedule words of a block to 64 (fuel = 48). -/
def sha256Extend : Nat → List Nat → List Nat
  | 0, ws => ws
  | fuel + 1, ws =>
    let i := ws.length
    let w15 := ws.getD (i - 15) 0
    let w2 := ws.getD (i - 2) 0
    let w16 := ws.getD (i - 16) 0
    let w7 := ws.getD (i - 7) 0
    let s0 := (rotr32 7 w15) ^^^ (rotr32 18 w15) ^^^ (w15 >>> 3)
    let s1 := (rotr32 17 w2) ^^^ (rotr32 19 w2) ^^^ (w2 >>> 10)
    sha256Extend fuel (ws ++ [w32 (w16 + s0 + w7 + s1)])

/-- The eight 32-bit working registers of SHA-256. -/
structure Sha256State where
  a : Nat
  b : Nat
  c : Nat
  d : Nat
  e : Nat
  f : Nat
  g : Nat
  h : Nat

/-- One SHA-256 compression round; the pair is (round constant, schedule word). -/
def sha256Round (st : Sha256State) (kw : Nat × Nat) : Sha256State :=
  let bigS1 := (rotr32 6 st.e) ^^^ (rotr32 11 st.e) ^^^ (rotr32 25 st.e)
  let ch := (st.e &&& st.f) ^^^ ((st.e ^^^ 0xffffffff) &&& st.g)
  let t1 := w32 (st.h + bigS1 + ch + kw.1 + kw.2)
  let bigS0 := (rotr32 2 st.a) ^^^ (rotr32 13 st.a) ^^^ (rotr32 22 st.a)
  let mj := (st.a &&& st.b) ^^^ (st.a &&& st.c) ^^^ (st.b &&& st.c)
  let t2 := w32 (bigS0 + mj)
  ⟨w32 (t1 + t2), st.a, st.b, st.c, w32 (st.d + t1), st.e, st.f, st.g⟩

/-- Compress one 16-word block into the running state. -/
def sha256BlockStep (st : Sha256State) (block : List Nat) : Sha256State :=
  let ws := sha256Extend 48 block
  let r := (sha256K.zip ws).foldl sha256Round st
  ⟨w32 (st.a + r.a), w32 (st.b + r.b), w32 (st.c + r.c), w32 (st.d + r.d),
   w32 (st.e + r.e), w32 (st.f + r.f), w32 (st.g + r.g), w32 (st.h + r.h)⟩

/-- SHA-256 padding: append 0x80, zero bytes to 56 mod 64, then the bit length big-endian. -/
def sha256Pad (msg : List Nat) : List Nat :=
  let len := msg.length
  let zeros := (119 - (len % 64)) % 64
  let bitLen := 8 * len
  msg ++ [0x80] ++ List.replicate zeros 0 ++
    [(bitLen >>> 56) % 256, (bitLen >>> 48) % 256, (bitLen >>> 40) % 256, (bitLen >>> 32) % 256,
     (bitLen >>> 24) % 256, (bitLen >>> 16) % 256, (bitLen >>> 8) % 256, bitLen % 256]

/-- Group four bytes into one big-endian 32-bit word. -/
def word32sOf (bytes : List Nat) : List Nat :=
  (chunksOf 3 bytes).map (fun b4 => b4.foldl (fun acc x => 256 * acc + x) 0)

/-- The SHA-256 initialisation vector. -/
def sha256Init : Sha256State :=
  ⟨1779033703, 3144134277, 1013904242, 2773480762,
   1359893119, 2600822924, 528734635, 1541459225⟩

/-- Lower-case hex digit. -/
def hexChar (n : Nat) : Char := if n < 10 then Char.ofNat (48 + n) else Char.ofNat (87 + n)

/-- Eight lower-case hex digits of a 32-bit word. -/
def hex8 (w : Nat) : List Char :=
  [hexChar ((w >>> 28) % 16), hexChar ((w >>> 24) % 16), hexChar ((w >>> 20) % 16),
   hexChar ((w >>> 16) % 16), hexChar ((w >>> 12) % 16), hexChar ((w >>> 8) % 16),
   hexChar ((w >>> 4) % 16), hexChar (w % 16)]

/-- `hashlib.sha256(s.encode("utf-8")).hexdigest()`. -/
def sha256hex (s : String) : String :=
  let st := ((chunksOf 63 (sha256Pad (strBytes s))).map word32sOf).foldl sha256BlockStep sha256Init
  String.mk (hex8 st.a ++ hex8 st.b ++ hex8 st.c ++ hex8 st.d ++
             hex8 st.e ++ hex8 st.f ++ hex8 st.g ++ hex8 st.h)

/-! ## app/forwarder.py — KeywordForwarder

`KeywordForwarder` compiles one regex per keyword, `rf"\b{re.escape(keyword)}\b"`,
with `re.IGNORECASE` unless case-sensitive. Since the keyword is escaped, the
pattern is a literal occurrence flanked by word boundaries; we embed that search
directly (ASCII case folding and ASCII word characters). -/

/-- Python regex `\w` (ASCII range): letters, digits, underscore. -/
def isWordChar (c : Char) : Bool := c.isAlphanum || c = '_'

/-- State of KeywordForwarder.__init__ (the compiled patterns are derived from
`keywords` and `case_sensitive`, see `KeywordForwarder.patterns`). -/
structure KeywordForwarder where
  keywords : List String
  case_sensitive : Bool
  forwarding_enabled : Bool
deriving DecidableEq

/-- Case folding applied by the IGNORECASE flag. -/
def foldCase (caseSensitive : Bool) (c : Char) : Char :=
  if caseSensitive then c else c.toLower

/-- Word-character test on an optional character, absent = non-word. -/
def isWordOpt : Option Char → Bool
  | some c => isWordChar c
  | none => false

/-- The `\b` assertion between two (optional) characters: word-ness changes. -/
def boundaryAt (left right : Option Char) : Bool := isWordOpt left != isWordOpt right

/-- Case-folded literal prefix test: does `kw` start the text? -/
def matchesLiteral (caseSensitive : Bool) : List Char → List Char → Bool
  | [], _ => true
  | _ :: _, [] => false
  | k :: ks, t :: ts =>
    (foldCase caseSensitive t == foldCase caseSensitive k) && matchesLiteral caseSensitive ks ts

/-- One attempt of `\b kw \b` at the current position; `prev` is the character
just before the position. -/
def kwAttemptAt (caseSensitive : Bool) (kw : List Char) (prev : Option Char) (text : List Char) : Bool :=
  matchesLiteral caseSensitive kw text &&
  boundaryAt prev text.head? &&
  boundaryAt (if kw.isEmpty then prev else ((text.drop (kw.length - 1)).head?))
    ((text.drop kw.length).head?)

/-- `pattern.search`: try every start position, left to right. -/
def kwSearchAux (caseSensitive : Bool) (kw : List Char) : Option Char → List Char → Bool
  | prev, [] => kwAttemptAt caseSensitive kw prev []
  | prev, t :: ts =>
    kwAttemptAt caseSensitive kw prev (t :: ts) || kwSearchAux caseSensitive kw (some t) ts

/-- `re.compile(rf"\b{re.escape(kw)}\b", flags).search(text) is not None`. -/
def patternHit (caseSensitive : Bool) (kw : String) (text : String) : Bool :=
  kwSearchAux caseSensitive kw.data none text.data

/-- `self.patterns`: one compiled pattern per keyword, in keyword order. -/
def KeywordForwarder.patterns (f : KeywordForwarder) : List (String → Bool) :=
  f.keywords.map (fun kw => patternHit f.case_sensitive kw)

/-- `KeywordForwarder.contains_keywords`: empty text is falsy and returns False;
otherwise any compiled pattern hit returns True. -/
def KeywordForwarder.contains_keywords (f : KeywordForwarder) (text : String) : Bool :=
  if text = "" then false
  else f.patterns.any (fun p => p text)

/-- `KeywordForwarder.get_matched_keywords`: empty text returns []; otherwise the
keywords whose zipped pattern hits, in order. -/
def KeywordForwarder.get_matched_keywords (f : KeywordForwarder) (text : String) : List String :=
  if text = "" then []
  else ((f.keywords.zip f.patterns).filter (fun kp => kp.2 text)).map (fun kp => kp.1)

/-! ## app/messages.py — link parsing and message identity

`TELEGRAM_LINK_RE = re.compile(r"https?://t\.me/(c/)?([\w_]+)/([0-9]+)")` used
with `.search`. We embed this one fixed pattern with re.search semantics,
including the backtracking of the optional `(c/)?` group. -/

/-- Consume an exact literal character sequence. -/
def eatLit : List Char → List Char → Option (List Char)
  | [], cs => some cs
  | p :: ps, c :: cs => if c = p then eatLit ps cs else none
  | _ :: _, [] => none

/-- The three captures of TELEGRAM_LINK_RE: group 1 presence, group 2, group 3. -/
structure LinkMatch where
  is_private : Bool
  peerPart : List Char
  msgDigits : List Char
deriving DecidableEq

/-- Pattern body after `t.me/` and the optional `c/`: greedy `[\w_]+`, a literal
slash, then greedy `[0-9]+`. Word characters do not include the slash, so the
greedy runs need no further backtracking: shortening `[\w_]+` would force the
slash of the pattern onto a word character. -/
def matchLinkBody (isPriv : Bool) (cs : List Char) : Option LinkMatch :=
  let peer := cs.takeWhile isWordChar
  if peer.isEmpty then none
  else
    match cs.dropWhile isWordChar with
    | '/' :: rest =>
      let ds := rest.takeWhile Char.isDigit
      if ds.isEmpty then none else some ⟨isPriv, peer, ds⟩
    | _ => none

/-- The `(c/)?` group: greedily consume `c/` first; if the rest of the pattern
then fails, backtrack to the empty alternative, as the regex engine does. -/
def matchLinkTail (cs : List Char) : Option LinkMatch :=
  match eatLit ['c', '/'] cs with
  | some rest =>
    match matchLinkBody true rest with
    | some m => some m
    | none => matchLinkBody false cs
  | none => matchLinkBody false cs

/-- Match TELEGRAM_LINK_RE anchored at the start of `cs`. The optional `s` of
`https?` needs no backtracking because the next pattern character is `:`. -/
def matchLinkAt (cs : List Char) : Option LinkMatch :=
  match eatLit ['h', 't', 't', 'p'] cs with
  | none => none
  | some r1 =>
    let r2 := match r1 with
      | 's' :: rest => rest
      | _ => r1
    match eatLit [':', '/', '/', 't', '.', 'm', 'e', '/'] r2 with
    | none => none
    | some r3 => matchLinkTail r3

/-- `re.search`: try each start position left to right, first hit wins. -/
def searchLink : List Char → Option LinkMatch
  | [] => none
  | c :: cs =>
    match matchLinkAt (c :: cs) with
    | some m => some m
    | none => searchLink cs

/-- Digit part of a Python base-10 int literal after the first digit: digits
with single underscores allowed strictly between digits. -/
def pyDigitsRest : List Char → Bool
  | [] => true
  | c :: cs =>
    if c = '_' then
      match cs with
      | [] => false
      | d :: ds => d.isDigit && pyDigitsRest ds
    else c.isDigit && pyDigitsRest cs

/-- Digit part of a Python base-10 int literal: must start with a digit. -/
def pyDigitsOk : List Char → Bool
  | [] => false
  | c :: cs => c.isDigit && pyDigitsRest cs

/-- Numeric value of a list of ASCII digits (underscores removed beforehand). -/
def digitsVal (l : List Char) : Nat := l.foldl (fun acc c => 10 * acc + (c.toNat - 48)) 0

/-- Semantics of Python `int(s)` for the strings this program builds (no
whitespace, optional sign, ASCII digits with single underscores between
digits); `none` where `int()` raises ValueError. -/
def pyIntOfString (s : String) : Option Int :=
  match s.data with
  | '-' :: rest =>
    if pyDigitsOk rest then some (-(Int.ofNat (digitsVal (rest.filter (fun c => c != '_'))))) else none
  | '+' :: rest =>
    if pyDigitsOk rest then some (Int.ofNat (digitsVal (rest.filter (fun c => c != '_')))) else none
  | rest =>
    if pyDigitsOk rest then some (Int.ofNat (digitsVal (rest.filter (fun c => c != '_')))) else none

deriving instance DecidableEq for Except

/-- A Telethon peer argument: `str` username or `int` channel id. -/
inductive PeerRef
  | uname (s : String)
  | chanId (n : Int)
deriving DecidableEq

/-- `parse_telegram_link`. The result is `Except` because the private branch
computes `int(f"-100{peer_part}")`, which raises ValueError whenever the
matched `[\w_]+` group is not a valid Python int literal; group 3 is `[0-9]+`
so `int(match.group(3))` always succeeds. -/
def parse_telegram_link (link : String) : Except String (Option (PeerRef × Nat)) :=
  match searchLink link.data with
  | none => Except.ok none
  | some m =>
    if m.is_private then
      match pyIntOfString (String.mk ('-' :: '1' :: '0' :: '0' :: m.peerPart)) with
      | some n => Except.ok (some (PeerRef.chanId n, digitsVal m.msgDigits))
      | none => Except.error "ValueError"
    else Except.ok (some (PeerRef.uname (String.mk m.peerPart), digitsVal m.msgDigits))

/-- The `peer_id` of a Telethon message: exactly one of the id kinds is set
(`user_id` may itself be absent). -/
inductive MsgPeer
  | channel (channel_id : Int)
  | chat (chat_id : Int)
  | user (user_id : Option Int)
deriving DecidableEq

/-- The parts of a Telethon Message that this program reads. -/
structure TgMessage where
  peer_id : Option MsgPeer
  id : Nat
deriving DecidableEq

/-- `message_identity`: getattr chain channel_id, chat_id, user_id. -/
def message_identity (m : TgMessage) : Option Int × Nat :=
  match m.peer_id with
  | none => (none, m.id)
  | some (MsgPeer.channel c) => (some c, m.id)
  | some (MsgPeer.chat c) => (some c, m.id)
  | some (MsgPeer.user u) => (u, m.id)

/-- Python f-string rendering of an optional int (None prints as "None"). -/
def pyOptIntStr : Option Int → String
  | none => "None"
  | some n => toString n

/-- `message_identity_string`: `f"{channel_id}:{message_id}"`. -/
def message_identity_string (m : TgMessage) : String :=
  pyOptIntStr (message_identity m).1 ++ ":" ++ toString (message_identity m).2

/-- `FetchOutcome` as declared in app/messages.py (note: it has no `needs_join`
and no `access_error` attribute; app/queue.py reads both). -/
structure FetchOutcome where
  message : Option TgMessage
  leave_after : Bool
  pending_peer : Option PeerRef
  message_id : Option Nat
deriving DecidableEq

/-! ## app/dedup.py — DeduplicationStore

Three SQLite tables become three lists: `processed_messages` (primary key
`message_hash`; `processed_at` is only read by the retention sweep, which no
claim concerns, so it is not tracked), `pending_forwards` (AUTOINCREMENT id)
and `joined_channels` (primary key `channel_link`). Timestamps are `Nat`,
passed in explicitly where the source uses CURRENT_TIMESTAMP / datetime.now(). -/

/-- A row of the `pending_forwards` table. Statuses are the literal strings the
source writes: "waiting_approval", "limit_exceeded", "join_failed", "done". -/
structure PendingForward where
  id : Nat
  message_link : String
  channel_link : String
  status : String
  attempts : Nat
  created_at : Nat
  last_try_at : Option Nat
  error_text : Option String
deriving DecidableEq

/-- A row of the `joined_channels` table. -/
structure JoinedChannel where
  channel_link : String
  channel_id : Option Int
  joined_at : Nat
deriving DecidableEq

/-- The persistent state of `DeduplicationStore`. -/
structure DeduplicationStore where
  processed : List String
  pending_forwards : List PendingForward
  next_pf_id : Nat
  joined_channels : List JoinedChannel
deriving DecidableEq

/-- `_init_db` creates the three tables empty; AUTOINCREMENT ids start at 1. -/
def emptyDedupStore : DeduplicationStore := ⟨[], [], 1, []⟩

/-- `_hash_message`. -/
def hashMessage (text : String) : String := sha256hex text

/-- `is_duplicate`: SELECT 1 FROM processed_messages WHERE message_hash = ?. -/
def DeduplicationStore.is_duplicate (st : DeduplicationStore) (text : String) : Bool :=
  decide (hashMessage text ∈ st.processed)

/-- `add_message`: INSERT OR IGNORE INTO processed_messages. -/
def DeduplicationStore.add_message (st : DeduplicationStore) (text : String) : DeduplicationStore :=
  if hashMessage text ∈ st.processed then st
  else { st with processed := st.processed ++ [hashMessage text] }

/-- `add_pending_forward`: INSERT with status, attempts 0, created_at now,
last_try_at NULL. -/
def DeduplicationStore.add_pending_forward (st : DeduplicationStore) (messageLink channelLink status : String) (errorText : Option String) (now : Nat) : DeduplicationStore :=
  { st with
    pending_forwards := st.pending_forwards ++
      [⟨st.next_pf_id, messageLink, channelLink, status, 0, now, none, errorText⟩],
    next_pf_id := st.next_pf_id + 1 }

/-- `update_pending_forward_status`: UPDATE ... WHERE id = ?. -/
def DeduplicationStore.update_pending_forward_status (st : DeduplicationStore) (rowId : Nat) (status : String) (attempts : Nat) (lastTryAt : Nat) (errorText : Option String) : DeduplicationStore :=
  { st with
    pending_forwards := st.pending_forwards.map (fun r =>
      if r.id = rowId then
        { r with status := status, attempts := attempts,
                 last_try_at := some lastTryAt, error_text := errorText }
      else r) }

/-- ORDER BY key of `get_pending_forwards_for_retry`:
COALESCE(last_try_at, created_at). -/
def retryKey (r : PendingForward) : Nat := r.last_try_at.getD r.created_at

/-- The SQL ordering relation of `get_pending_forwards_for_retry`. -/
def retryLe (a b : PendingForward) : Prop := retryKey a ≤ retryKey b

instance : DecidableRel retryLe := fun a b => Nat.decLe (retryKey a) (retryKey b)

instance : IsTotal PendingForward retryLe := ⟨fun a b => Nat.le_total (retryKey a) (retryKey b)⟩

instance : IsTrans PendingForward retryLe :=
  ⟨fun _ _ _ hab hbc => Nat.le_trans hab hbc⟩

/-- `get_pending_forwards_for_retry`: WHERE status = 'waiting_approval' AND
attempts < max_attempts ORDER BY COALESCE(last_try_at, created_at) ASC LIMIT ?. -/
def DeduplicationStore.get_pending_forwards_for_retry (st : DeduplicationStore) (limit : Nat := 20) (maxAttempts : Nat := 20) : List PendingForward :=
  ((st.pending_forwards.filter
      (fun r => r.status = "waiting_approval" && r.attempts < maxAttempts)).insertionSort
    retryLe).take limit

/-- `record_joined_channel`: INSERT OR REPLACE keyed on channel_link. -/
def DeduplicationStore.record_joined_channel (st : DeduplicationStore) (channelLink : String) (channelId : Option Int) (now : Nat) : DeduplicationStore :=
  { st with
    joined_channels := st.joined_channels.filter (fun r => r.channel_link ≠ channelLink) ++
      [⟨channelLink, channelId, now⟩] }

/-- `remove_joined_channel`: DELETE WHERE channel_link = ?. -/
def DeduplicationStore.remove_joined_channel (st : DeduplicationStore) (channelLink : String) : DeduplicationStore :=
  { st with joined_channels := st.joined_channels.filter (fun r => r.channel_link ≠ channelLink) }

/-- `count_joined_channels`: SELECT COUNT(*). -/
def DeduplicationStore.count_joined_channels (st : DeduplicationStore) : Nat :=
  st.joined_channels.length

/-- ORDER BY joined_at of `get_oldest_joined_channel`. -/
def joinedLe (a b : JoinedChannel) : Prop := a.joined_at ≤ b.joined_at

instance : DecidableRel joinedLe := fun a b => Nat.decLe a.joined_at b.joined_at

/-- `get_oldest_joined_channel`: ORDER BY joined_at ASC LIMIT 1. -/
def DeduplicationStore.get_oldest_joined_channel (st : DeduplicationStore) : Option JoinedChannel :=
  (st.joined_channels.insertionSort joinedLe).head?

/-- A storage-layer (sqlite3) exception. -/
inductive SqlError
  | sqlite
deriving DecidableEq

/-- `is_duplicate` as run against a possibly failing storage layer. The method
body wraps its query in no try/except, so when the read raises, the exception
propagates to the caller. -/
def is_duplicate_run (readFails : Bool) (st : DeduplicationStore) (text : String) : Except SqlError Bool :=
  if readFails then Except.error SqlError.sqlite
  else Except.ok (st.is_duplicate text)

/-- `get_pending_forwards_for_retry` as run against a possibly failing storage
layer; again there is no exception handler in the method body. -/
def get_pending_forwards_for_retry_run (readFails : Bool) (st : DeduplicationStore) (limit maxAttempts : Nat) : Except SqlError (List PendingForward) :=
  if readFails then Except.error SqlError.sqlite
  else Except.ok (st.get_pending_forwards_for_retry limit maxAttempts)

/-! ## app/subscriptions.py — SubscriptionTracker

One SQLite table `pending_subscriptions` keyed on `channel_id`. The Telethon
client calls of `ensure_membership` are resolved through a `JoinEnv` record
fixing the outcome of each network call, and the calls issued are traced. -/

/-- A row of `pending_subscriptions` (channel_id is the primary key; the code
only inserts rows whose channel_id is truthy). -/
structure PendingSubscription where
  channel_id : Option Int
  channel_username : Option String
  message_id : Option Int
  link : String
  requested_at : Nat
deriving DecidableEq

/-- The persistent state of `SubscriptionTracker`. -/
structure SubscriptionTracker where
  pending_subscriptions : List PendingSubscription
deriving DecidableEq

/-- Python truthiness of an Optional[int]: None and 0 are falsy. -/
def truthyInt : Option Int → Bool
  | some n => n != 0
  | none => false

/-- Python truthiness of an Optional[str]: None and "" are falsy. -/
def truthyStr : Option String → Bool
  | some s => s != ""
  | none => false

/-- `add_pending`: INSERT OR REPLACE keyed on channel_id. With a NULL key SQLite
would assign a fresh rowid instead of replacing; the source only calls this
with a truthy channel_id, but the NULL case is kept for faithfulness. -/
def SubscriptionTracker.add_pending (tr : SubscriptionTracker) (channelId : Option Int) (channelUsername : Option String) (messageId : Option Int) (link : String) (now : Nat) : SubscriptionTracker :=
  match channelId with
  | some c =>
    ⟨tr.pending_subscriptions.filter (fun p => p.channel_id ≠ some c) ++
      [⟨some c, channelUsername, messageId, link, now⟩]⟩
  | none => ⟨tr.pending_subscriptions ++ [⟨none, channelUsername, messageId, link, now⟩]⟩

/-- `remove_pending`: returns immediately when channel_id is None, else DELETE. -/
def SubscriptionTracker.remove_pending (tr : SubscriptionTracker) (channelId : Option Int) : SubscriptionTracker :=
  match channelId with
  | none => tr
  | some c => ⟨tr.pending_subscriptions.filter (fun p => p.channel_id ≠ some c)⟩

/-- ORDER BY requested_at of `get_oldest_pending`. -/
def requestedLe (a b : PendingSubscription) : Prop := a.requested_at ≤ b.requested_at

instance : DecidableRel requestedLe := fun a b => Nat.decLe a.requested_at b.requested_at

/-- `get_oldest_pending`: ORDER BY requested_at ASC LIMIT 1. -/
def SubscriptionTracker.get_oldest_pending (tr : SubscriptionTracker) : Option PendingSubscription :=
  (tr.pending_subscriptions.insertionSort requestedLe).head?

/-- The dataclass returned by `ensure_membership`. -/
structure JoinAttempt where
  joined : Bool
  pending : Bool
  channel_id : Option Int
  channel_username : Option String
deriving DecidableEq

/-- Outcome of a `JoinChannelRequest` network call. -/
inductive JoinOutcome
  | ok
  | tooMuch
  | privateChannel
  | otherErr
deriving DecidableEq

/-- Environment fixing the outcome of each network call one `ensure_membership`
run can make. `leaveSucceeds` never influences control flow: `leave_channel`
logs and swallows any exception. -/
structure JoinEnv where
  entityChannelId : Option Int
  firstJoin : JoinOutcome
  retryJoinSucceeds : Bool
  leaveSucceeds : Bool
deriving DecidableEq

/-- A traced Telethon client call. -/
inductive ClientCall
  | getInputEntity (p : PeerRef)
  | joinRequest (p : PeerRef)
  | leaveRequest (target : Sum Int String)
deriving DecidableEq

/-- Argument of `leave_channel` during eviction:
`oldest.channel_id or oldest.channel_username`. -/
def leaveTargetOf (p : PendingSubscription) : Sum Int String :=
  if truthyInt p.channel_id then Sum.inl (p.channel_id.getD 0)
  else Sum.inr (p.channel_username.getD "")

/-- `ensure_membership(client, peer, message_id, link)`. Returns the
JoinAttempt, the tracker state afterwards, and the trace of client calls.
Control flow follows the source: try to join; on ChannelsTooMuchError evict
the oldest pending subscription (best-effort leave whose failure is swallowed,
then remove_pending) and retry the join once; on ChannelPrivateError remember
the request via add_pending; any other error returns joined=False,
pending=False. -/
def SubscriptionTracker.ensure_membership (env : JoinEnv) (tr : SubscriptionTracker) (peer : PeerRef) (messageId : Int) (link : String) (now : Nat) : JoinAttempt × SubscriptionTracker × List ClientCall :=
  let channelUsername := match peer with
    | PeerRef.uname s => some s
    | PeerRef.chanId _ => none
  let channelId := env.entityChannelId
  let calls0 := [ClientCall.getInputEntity peer, ClientCall.joinRequest peer]
  match env.firstJoin with
  | JoinOutcome.ok =>
    let tr1 := if truthyInt channelId then tr.remove_pending channelId else tr
    (⟨true, false, channelId, channelUsername⟩, tr1, calls0)
  | JoinOutcome.tooMuch =>
    match tr.get_oldest_pending with
    | some oldest =>
      if truthyInt oldest.channel_id || truthyStr oldest.channel_username then
        let calls1 := calls0 ++ [ClientCall.leaveRequest (leaveTargetOf oldest)]
        let tr1 := tr.remove_pending oldest.channel_id
        let calls2 := calls1 ++ [ClientCall.joinRequest peer]
        if env.retryJoinSucceeds then
          let tr2 := if truthyInt channelId then tr1.remove_pending channelId else tr1
          (⟨true, false, channelId, channelUsername⟩, tr2, calls2)
        else
          (⟨false, true, channelId, channelUsername⟩, tr1, calls2)
      else (⟨false, true, channelId, channelUsername⟩, tr, calls0)
    | none => (⟨false, true, channelId, channelUsername⟩, tr, calls0)
  | JoinOutcome.privateChannel =>
    let tr1 :=
      if truthyInt channelId then
        tr.add_pending channelId channelUsername (some messageId) link now
      else tr
    (⟨false, true, channelId, channelUsername⟩, tr1, calls0)
  | JoinOutcome.otherErr => (⟨false, false, channelId, channelUsername⟩, tr, calls0)

/-! ## app/queue.py — ForwardingQueue worker and PendingForwardWorker

Network sends are resolved through environment records; rate-limit sleeps have
no observable state here. The dedup store is `Option DeduplicationStore`
because `_forward_message` guards every store access with
`if self.dedup_store`. -/

/-- Environment of `_forward_message`: per-target outcome of
`client.forward_messages(target, message)`. -/
structure ForwardEnv where
  sendOk : String → Bool

/-- `ForwardingQueue._forward_message(client, message, targets, message_link)`.
Returns the store afterwards and the list of targets delivered to. Source
order: duplicate check (skipped when the store is None); per-target sends with
failures logged and swallowed; if at least one send succeeded and a store is
present, record both the message identity and the original link. -/
def forward_message (dedup : Option DeduplicationStore) (env : ForwardEnv) (m : TgMessage) (targets : List String) (messageLink : String) : Option DeduplicationStore × List String :=
  let identity := message_identity_string m
  match dedup with
  | some st =>
    if st.is_duplicate identity then (some st, [])
    else
      let sent := targets.filter env.sendOk
      if sent.isEmpty then (some st, sent)
      else (some ((st.add_message identity).add_message messageLink), sent)
  | none => (none, targets.filter env.sendOk)

/-- A work item of the forwarding queue
(`(client, message_link, targets, channel_link)`). -/
structure WorkItem where
  message_link : String
  targets : List String
  channel_link : Option String
deriving DecidableEq

/-- Environment of one `_worker` loop iteration: the outcome of
`fetch_message_by_link` per link and of each delivery. -/
structure WorkerEnv where
  fetch : String → FetchOutcome
  sendOk : String → Bool

/-- One item of `ForwardingQueue._worker` (queue.py lines 128-160). When
`outcome.message is None` the source evaluates `outcome.needs_join` — but
messages.py defines no such attribute on FetchOutcome, so the line raises
AttributeError before `ensure_membership` can be called; the blanket
`except Exception` at the end of the loop body logs it and the item is
dropped with no state change. When a message was fetched, `_forward_message`
runs. -/
def worker_process_item (env : WorkerEnv) (dedup : Option DeduplicationStore) (item : WorkItem) : Option DeduplicationStore × List String :=
  match (env.fetch item.message_link).message with
  | none => (dedup, [])
  | some m => forward_message dedup ⟨env.sendOk⟩ m item.targets item.message_link

/-- Environment of one `PendingForwardWorker` cycle: fetch outcome per message
link, per-target delivery outcome, and the configured target list. -/
structure RetryEnv where
  fetch : String → FetchOutcome
  sendOk : String → Bool
  targets : List String

/-- Status written for a retried row: "done" when a message was fetched
(regardless of delivery: the source marks done right after `_forward_message`
returns), otherwise "join_failed" — because with no message the source
evaluates `outcome.needs_join`, which raises AttributeError (FetchOutcome has
no such field), and the per-row `except Exception` handler writes
status "join_failed", attempts + 1. -/
def retryStatus (env : RetryEnv) (row : PendingForward) : String :=
  match (env.fetch row.message_link).message with
  | some _ => "done"
  | none => "join_failed"

/-- error_text written for a retried row: NULL on the done path, str(exc) of
the AttributeError on the failure path. -/
def retryErr (env : RetryEnv) (row : PendingForward) : Option String :=
  match (env.fetch row.message_link).message with
  | some _ => none
  | none => some "AttributeError: needs_join"

/-- One row of a `PendingForwardWorker._worker` cycle (queue.py lines 218-254).
On a fetched message: `_forward_message` with the configured targets, then
`leave_after_forward(client, row["channel_link"])` — whose argument is a
string, so `getattr(message, "peer_id", None)` is None and it returns without
touching any state — then the row is marked done with attempts + 1. Otherwise
the AttributeError path marks the row join_failed with attempts + 1. -/
def retry_process_row (env : RetryEnv) (now : Nat) (st : DeduplicationStore) (row : PendingForward) : DeduplicationStore :=
  match (env.fetch row.message_link).message with
  | some m =>
    let st1 := match (forward_message (some st) ⟨env.sendOk⟩ m env.targets row.message_link).1 with
      | some s => s
      | none => st
    st1.update_pending_forward_status row.id "done" (row.attempts + 1) now none
  | none =>
    st.update_pending_forward_status row.id "join_failed" (row.attempts + 1) now
      (some "AttributeError: needs_join")

/-- One full cycle of `PendingForwardWorker._worker`: select up to `limit`
retryable rows (the source passes limit=25 and its configured max_attempts),
then process each selected row in order. -/
def retry_cycle (env : RetryEnv) (st : DeduplicationStore) (limit maxAttempts now : Nat) : DeduplicationStore :=
  (st.get_pending_forwards_for_retry limit maxAttempts).foldl (retry_process_row env now) st

/-- Effect that processing one selected row has on a single pending_forwards
table row: the row with the matching id receives the new status, attempts,
last_try_at and error_text; every other row is untouched. -/
def retryRowMap (env : RetryEnv) (now : Nat) (row : PendingForward) (r : PendingForward) : PendingForward :=
  if r.id = row.id then
    { r with status := retryStatus env row, attempts := row.attempts + 1,
             last_try_at := some now, error_text := retryErr env row }
  else r

/-- The pending_forwards table seen through an optional store. -/
def pfOf : Option DeduplicationStore → List PendingForward
  | some st => st.pending_forwards
  | none => []

/-- The ordering the specification claims for listRetryable: `lastTryAt`
ascending with NULL rows first. Stated from the words of the spec, to be
compared with the implemented ordering `retryKey`. -/
def specNullsFirstLe (a b : PendingForward) : Bool :=
  match a.last_try_at, b.last_try_at with
  | none, _ => true
  | some _, none => false
  | some x, some y => x ≤ y

/-! ## run.py — the NewMessage handler

The handler filters by keyword, checks and records the text fingerprint, and
then tries to enqueue. `queue = ForwardingQueue()` in main() lacks the two
required positional arguments and `queue.add_to_queue` does not exist on
ForwardingQueue, so with forwarding enabled and a target the loop raises
AttributeError on its first iteration and nothing is ever enqueued; the
fingerprint write has already been committed at that point. -/

/-- Configuration and state the handler closes over. -/
structure HandlerCtx where
  shutdown : Bool
  forwarder : KeywordForwarder
  dedup : Option DeduplicationStore
  forwarding_enabled : Bool
  targets : List String

/-- `handler(event)` from run.py lines 120-149: returns the dedup store
afterwards and the list of links actually enqueued (always empty, see above). -/
def run_handler (ctx : HandlerCtx) (messageText : String) : Option DeduplicationStore × List String :=
  if ctx.shutdown then (ctx.dedup, [])
  else if !(ctx.forwarder.contains_keywords messageText) then (ctx.dedup, [])
  else
    match ctx.dedup with
    | some st =>
      if st.is_duplicate messageText then (some st, [])
      else
        let st1 := st.add_message messageText
        (some st1, [])
    | none => (none, [])

/-! ## Combined application state

`ensure_membership` receives only the SubscriptionTracker; the
DeduplicationStore (and with it the joined_channels table) is a separate
object that the method never touches. The combined state makes that explicit
so that sequences of calls can be stated over the whole persistent state. -/

/-- The whole persistent state: the dedup/ledger database and the tracker. -/
structure AppState where
  dedup : DeduplicationStore
  subs : SubscriptionTracker
deriving DecidableEq

/-- The state created by `DeduplicationStore.__init__` and
`SubscriptionTracker.__init__` on a fresh database: empty tables. -/
def initialAppState : AppState := ⟨emptyDedupStore, ⟨[]⟩⟩

/-- Arguments of one `ensure_membership` call together with its network
environment. -/
structure EMCall where
  env : JoinEnv
  peer : PeerRef
  message_id : Int
  link : String
  now : Nat

/-- Effect of one `ensure_membership` call on the whole persistent state: the
tracker is updated per `SubscriptionTracker.ensure_membership`; the body
performs no DeduplicationStore operation, so that component is unchanged. -/
def emStep (s : AppState) (c : EMCall) : AppState :=
  ⟨s.dedup, (SubscriptionTracker.ensure_membership c.env s.subs c.peer c.message_id c.link c.now).2.1⟩

/-- Run a sequence of `ensure_membership` calls. -/
def runEMCalls (s : AppState) (calls : List EMCall) : AppState := calls.foldl emStep s

/-! ## Theorems -/

theorem sha256hex_abc_vector :
    sha256hex "abc" = "ba7816bf8f01cfea414140de5dae2223b00361a396177a9cb410ff61f20015ad" := by
  decide

theorem parse_public_link_example : parse_telegram_link "https://t.me/somechan/99" =
    Except.ok (some (PeerRef.uname "somechan", 99)) := by decide

theorem keyword_boundary_example :
    KeywordForwarder.contains_keywords ⟨["deal"], false, true⟩ "a Deal here" = true ∧
    KeywordForwarder.contains_keywords ⟨["deal"], false, true⟩ "dealing" = false := by decide

theorem emStep_dedup (s : AppState) (c : EMCall) : (emStep s c).dedup = s.dedup := rfl

theorem runEMCalls_dedup (calls : List EMCall) : ∀ s : AppState, (runEMCalls s calls).dedup = s.dedup := by
  induction calls with
  | nil => intro s; rfl
  | cons c cs ih =>
    intro s
    simpa [runEMCalls, List.foldl_cons] using ih (emStep s c)

/-- Claim C1: for every sequence of ensureMembership calls, the number of
JoinedChannel rows at the end of each call never exceeds the configured
membership quota. This holds on the code because `ensure_membership` performs
no operation on the joined_channels table at all (it lives in the separate
DeduplicationStore object), so the count after every prefix of calls equals
the initial count. -/
theorem c1_joined_quota_invariant (s0 : AppState) (quota : Nat) (calls : List EMCall)
    (h : s0.dedup.count_joined_channels ≤ quota) (i : Nat) :
    (runEMCalls s0 (calls.take i)).dedup.count_joined_channels ≤ quota := by
  rw [runEMCalls_dedup (calls.take i) s0]
  exact h

theorem c1_joined_quota_invariant_witness :
    (initialAppState.dedup.count_joined_channels ≤ 0) ∧
    (runEMCalls initialAppState
        ([⟨⟨none, JoinOutcome.tooMuch, false, false⟩, PeerRef.uname "chan", 5, "L", 3⟩].take 1)).dedup.count_joined_channels ≤ 0 :=
  ⟨by decide,
   c1_joined_quota_invariant initialAppState 0
     [⟨⟨none, JoinOutcome.tooMuch, false, false⟩, PeerRef.uname "chan", 5, "L", 3⟩] (by decide) 1⟩

/-- Claim C2 counterexample. Scenario of the claim: the account is at the
platform join limit (the join raises ChannelsTooMuchError, the code analogue of
quota = 1 with one channel joined) and leaving the evicted channel fails
(leaveSucceeds = false). The claim says the call returns limit_exceeded without
attempting to join and the new channel is never joined. On the code the call
joins the new channel (joined = true): the leave failure is swallowed, and the
join of the new channel is attempted twice. -/
theorem c2_counterexample :
    (SubscriptionTracker.ensure_membership ⟨none, JoinOutcome.tooMuch, true, false⟩
        ⟨[⟨some 1, some "old", some 9, "OL", 0⟩]⟩ (PeerRef.uname "newchan") 42 "ML" 100).1.joined = true ∧
    (SubscriptionTracker.ensure_membership ⟨none, JoinOutcome.tooMuch, true, false⟩
        ⟨[⟨some 1, some "old", some 9, "OL", 0⟩]⟩ (PeerRef.uname "newchan") 42 "ML" 100).2.2.count
      (ClientCall.joinRequest (PeerRef.uname "newchan")) = 2 := by
  decide

/-- Claim C2 (amended): when the join raises the platform too-many-channels
error, `ensure_membership` always attempts the join of the new channel; it
evicts the oldest pending subscription (the leave failure is ignored) and
retries the join once; when the retry also fails it returns a JoinAttempt with
joined = false, pending = true — there is no limit_exceeded status — and no
PendingForward ledger row is ever written by the call. -/
theorem c2_amended (s : AppState) (c : EMCall)
    (h1 : c.env.firstJoin = JoinOutcome.tooMuch) (h2 : c.env.retryJoinSucceeds = false) :
    (SubscriptionTracker.ensure_membership c.env s.subs c.peer c.message_id c.link c.now).1.joined = false ∧
    (SubscriptionTracker.ensure_membership c.env s.subs c.peer c.message_id c.link c.now).1.pending = true ∧
    ClientCall.joinRequest c.peer ∈
      (SubscriptionTracker.ensure_membership c.env s.subs c.peer c.message_id c.link c.now).2.2 ∧
    (emStep s c).dedup.pending_forwards = s.dedup.pending_forwards := by
  refine ⟨?_, ?_, ?_, rfl⟩ <;>
  · simp only [SubscriptionTracker.ensure_membership, h1]
    cases hold : s.subs.get_oldest_pending with
    | none => simp
    | some oldest =>
      by_cases hg : (truthyInt oldest.channel_id || truthyStr oldest.channel_username) = true
      · simp [hg, h2]
      · simp [hg]

theorem c2_amended_witness :
    ((⟨⟨none, JoinOutcome.tooMuch, false, false⟩, PeerRef.uname "x", 1, "L", 0⟩ : EMCall).env.firstJoin
        = JoinOutcome.tooMuch) ∧
    ((⟨⟨none, JoinOutcome.tooMuch, false, false⟩, PeerRef.uname "x", 1, "L", 0⟩ : EMCall).env.retryJoinSucceeds
        = false) ∧
    (SubscriptionTracker.ensure_membership
        (⟨⟨none, JoinOutcome.tooMuch, false, false⟩, PeerRef.uname "x", 1, "L", 0⟩ : EMCall).env
        initialAppState.subs (PeerRef.uname "x") 1 "L" 0).1.joined = false :=
  ⟨rfl, rfl,
   (c2_amended initialAppState ⟨⟨none, JoinOutcome.tooMuch, false, false⟩, PeerRef.uname "x", 1, "L", 0⟩
     rfl rfl).1⟩

/-- Claim C8 counterexample: when the storage read fails, `is_duplicate` does
not return False and `get_pending_forwards_for_retry` does not return an empty
list — both propagate the storage exception to the caller, since neither
method body has an exception handler. -/
theorem c8_counterexample :
    is_duplicate_run true emptyDedupStore "msg" ≠ Except.ok false ∧
    get_pending_forwards_for_retry_run true emptyDedupStore 20 20 ≠ Except.ok [] := by
  decide

/-- Claim C8 (amended): storage-layer read errors are not converted to a
conservative default; `is_duplicate` and `get_pending_forwards_for_retry`
wrap their queries in no try/except, so a failing read propagates the storage
exception to the caller for every store state and every argument. -/
theorem c8_amended (st : DeduplicationStore) (text : String) (limit maxAttempts : Nat) :
    is_duplicate_run true st text = Except.error SqlError.sqlite ∧
    get_pending_forwards_for_retry_run true st limit maxAttempts = Except.error SqlError.sqlite :=
  ⟨rfl, rfl⟩

theorem anyMap_iff_filterZip (g : String → (String → Bool)) (text : String) :
    ∀ l : List String, ((l.map g).any (fun p => p text) = true ↔
      ((((l.zip (l.map g)).filter (fun kp => kp.2 text)).map (fun kp => kp.1)) ≠ [])) := by
  intro l
  induction l with
  | nil => simp
  | cons k ks ih =>
    simp only [List.map_cons, List.any_cons, List.zip_cons_cons, List.filter_cons]
    by_cases h : g k text = true
    · simp [h]
    · simp only [h, Bool.false_or, if_neg]
      simpa [h] using ih

/-- Claim C10: `contains_keywords text` is true exactly when
`get_matched_keywords text` is non-empty; empty text gives False and [].
(Both methods only read the forwarder, so in this pure embedding state
mutation is impossible by construction.) -/
theorem c10_keywords_iff (f : KeywordForwarder) (text : String) :
    (f.contains_keywords text = true ↔ f.get_matched_keywords text ≠ []) ∧
    f.contains_keywords "" = false ∧ f.get_matched_keywords "" = [] := by
  refine ⟨?_, rfl, rfl⟩
  by_cases h : text = ""
  · subst h
    simp [KeywordForwarder.contains_keywords, KeywordForwarder.get_matched_keywords]
  · simp only [KeywordForwarder.contains_keywords, KeywordForwarder.get_matched_keywords,
      if_neg h, KeywordForwarder.patterns]
    exact anyMap_iff_filterZip (fun kw => patternHit f.case_sensitive kw) text f.keywords

theorem selection_spec (st : DeduplicationStore) (limit maxAttempts : Nat) :
    ∀ r ∈ st.get_pending_forwards_for_retry limit maxAttempts,
      r ∈ st.pending_forwards ∧ r.status = "waiting_approval" ∧ r.attempts < maxAttempts := by
  intro r hr
  unfold DeduplicationStore.get_pending_forwards_for_retry at hr
  have h1 := List.mem_of_mem_take hr
  have h2 := (List.perm_insertionSort retryLe _).mem_iff.mp h1
  have h3 := List.mem_filter.mp h2
  have h4 := h3.2
  simp only [Bool.and_eq_true, decide_eq_true_eq] at h4
  exact ⟨h3.1, h4.1, h4.2⟩

theorem selection_sorted (st : DeduplicationStore) (limit maxAttempts : Nat) :
    List.Pairwise retryLe (st.get_pending_forwards_for_retry limit maxAttempts) :=
  List.Pairwise.sublist (List.take_sublist _ _) (List.sorted_insertionSort retryLe _)

/-- Claim C7 (amended): `get_pending_forwards_for_retry(limit, max_attempts)`
returns only rows of the table with status waiting_approval and attempts
strictly below max_attempts, at most limit rows, ordered ascending by
COALESCE(last_try_at, created_at) — i.e. a row whose last_try_at is NULL sorts
at its creation time, not first. -/
theorem c7_listRetryable (st : DeduplicationStore) (limit maxAttempts : Nat) :
    (∀ r ∈ st.get_pending_forwards_for_retry limit maxAttempts,
        r ∈ st.pending_forwards ∧ r.status = "waiting_approval" ∧ r.attempts < maxAttempts) ∧
    (st.get_pending_forwards_for_retry limit maxAttempts).length ≤ limit ∧
    List.Pairwise retryLe (st.get_pending_forwards_for_retry limit maxAttempts) := by
  refine ⟨selection_spec st limit maxAttempts, ?_, selection_sorted st limit maxAttempts⟩
  unfold DeduplicationStore.get_pending_forwards_for_retry
  exact List.length_take_le _ _

/-- Claim C7 counterexample: with row 1 = waiting_approval, created_at 0,
last_try_at 5 and row 2 = waiting_approval, created_at 10, last_try_at NULL,
the code returns [row 1, row 2] (COALESCE keys 5 and 10), but the claimed
NULLs-first order requires the NULL row 2 first: the claimed relation does not
hold between the first and second returned rows. -/
theorem c7_counterexample :
    (DeduplicationStore.get_pending_forwards_for_retry
        ⟨[], [⟨1, "LA", "CA", "waiting_approval", 1, 0, some 5, none⟩,
              ⟨2, "LB", "CB", "waiting_approval", 0, 10, none, none⟩], 3, []⟩ 20 20).map
      (fun r => r.id) = [1, 2] ∧
    specNullsFirstLe ⟨1, "LA", "CA", "waiting_approval", 1, 0, some 5, none⟩
      ⟨2, "LB", "CB", "waiting_approval", 0, 10, none, none⟩ = false := by
  decide

theorem add_message_pf (st : DeduplicationStore) (t : String) :
    (st.add_message t).pending_forwards = st.pending_forwards := by
  unfold DeduplicationStore.add_message
  split <;> rfl

theorem add_message_self_dup (st : DeduplicationStore) (t : String) :
    (st.add_message t).is_duplicate t = true := by
  unfold DeduplicationStore.add_message DeduplicationStore.is_duplicate
  split_ifs with h
  · simpa using h
  · simp

theorem is_duplicate_mono (st : DeduplicationStore) (t u : String)
    (h : st.is_duplicate u = true) : (st.add_message t).is_duplicate u = true := by
  unfold DeduplicationStore.is_duplicate at h ⊢
  unfold DeduplicationStore.add_message
  split_ifs with hmem
  · exact h
  · simp only [decide_eq_true_eq, List.mem_append] at h ⊢
    exact Or.inl (by simpa using h)

theorem forward_message_some_eq (st : DeduplicationStore) (env : ForwardEnv) (m : TgMessage)
    (targets : List String) (link : String) :
    forward_message (some st) env m targets link =
      if st.is_duplicate (message_identity_string m) then (some st, [])
      else if (targets.filter env.sendOk).isEmpty then (some st, targets.filter env.sendOk)
      else (some ((st.add_message (message_identity_string m)).add_message link),
            targets.filter env.sendOk) := rfl

theorem forward_message_pf (dedup : Option DeduplicationStore) (env : ForwardEnv) (m : TgMessage)
    (targets : List String) (link : String) :
    pfOf (forward_message dedup env m targets link).1 = pfOf dedup := by
  cases dedup with
  | none => rfl
  | some st =>
    rw [forward_message_some_eq]
    split_ifs <;> simp [pfOf, add_message_pf]

/-- Claim C4: a message delivered to at least one target is recorded: the
store afterwards reports `is_duplicate(identity)` = true, and processing the
same link again (any worker iteration whose fetch yields the same message)
delivers to no target and leaves the store unchanged. -/
theorem c4_delivery_records_and_dedups (st : DeduplicationStore) (env : ForwardEnv)
    (m : TgMessage) (targets : List String) (link : String)
    (h : (forward_message (some st) env m targets link).2 ≠ []) :
    (∃ st1, (forward_message (some st) env m targets link).1 = some st1 ∧
        st1.is_duplicate (message_identity_string m) = true) ∧
    (∀ (env2 : WorkerEnv) (item : WorkItem),
        (env2.fetch item.message_link).message = some m →
        worker_process_item env2 (forward_message (some st) env m targets link).1 item =
          ((forward_message (some st) env m targets link).1, [])) := by
  by_cases hd : st.is_duplicate (message_identity_string m) = true
  · rw [forward_message_some_eq, if_pos hd] at h
    exact absurd rfl h
  · by_cases hs : (targets.filter env.sendOk).isEmpty = true
    · rw [forward_message_some_eq, if_neg hd, if_pos hs] at h
      exact absurd (List.isEmpty_iff.mp hs) h
    · have hdup : ((st.add_message (message_identity_string m)).add_message link).is_duplicate
          (message_identity_string m) = true :=
        is_duplicate_mono _ _ _ (add_message_self_dup st _)
      constructor
      · rw [forward_message_some_eq, if_neg hd, if_neg hs]
        exact ⟨_, rfl, hdup⟩
      · intro env2 item hf
        rw [forward_message_some_eq, if_neg hd, if_neg hs]
        simp only [worker_process_item, hf]
        rw [forward_message_some_eq, if_pos hdup]

theorem c4_delivery_records_and_dedups_witness :
    ((forward_message (some emptyDedupStore) ⟨fun _ => true⟩ ⟨some (MsgPeer.channel 5), 7⟩
        ["t1"] "LK").2 ≠ []) ∧
    (∃ st1, (forward_message (some emptyDedupStore) ⟨fun _ => true⟩ ⟨some (MsgPeer.channel 5), 7⟩
        ["t1"] "LK").1 = some st1 ∧
        st1.is_duplicate (message_identity_string ⟨some (MsgPeer.channel 5), 7⟩) = true) :=
  ⟨by decide,
   (c4_delivery_records_and_dedups emptyDedupStore ⟨fun _ => true⟩ ⟨some (MsgPeer.channel 5), 7⟩
     ["t1"] "LK" (by decide)).1⟩

/-- Claim C3 counterexample: a work item whose fetch yields no message (here:
an unparseable link, FetchOutcome(None, False, None, None)) is dropped by the
worker with no successful-delivery fingerprint and no PendingForward ledger
entry: the store is returned unchanged — still completely empty — and nothing
was delivered. -/
theorem c3_counterexample :
    worker_process_item ⟨fun _ => ⟨none, false, none, none⟩, fun _ => true⟩
        (some emptyDedupStore) ⟨"notalink", ["t1"], some "CL"⟩ =
      (some emptyDedupStore, []) := by
  decide

/-- Claim C3 (amended): the queue worker never writes a PendingForward ledger
row (its membership branch is dead code: `outcome.needs_join` raises
AttributeError, which the blanket handler swallows), and every item that ends
with no successful delivery leaves the store entirely unchanged — failed items
are dropped with only a log line. -/
theorem c3_no_ledger_writes (env : WorkerEnv) (dedup : Option DeduplicationStore) (item : WorkItem) :
    pfOf (worker_process_item env dedup item).1 = pfOf dedup ∧
    ((worker_process_item env dedup item).2 = [] → (worker_process_item env dedup item).1 = dedup) := by
  constructor
  · cases hf : (env.fetch item.message_link).message with
    | none => simp [worker_process_item, hf]
    | some m => simp [worker_process_item, hf, forward_message_pf]
  · intro h2
    cases hf : (env.fetch item.message_link).message with
    | none => simp [worker_process_item, hf]
    | some m =>
      simp only [worker_process_item, hf] at h2 ⊢
      cases dedup with
      | none => rfl
      | some st =>
        rw [forward_message_some_eq] at h2 ⊢
        split_ifs at h2 ⊢ with hd hs
        · rfl
        · rfl
        · exact absurd h2 (by simpa using hs)

theorem c3_no_ledger_writes_witness :
    ((worker_process_item ⟨fun _ => ⟨none, false, none, none⟩, fun _ => false⟩
        (some emptyDedupStore) ⟨"badlink", ["t1"], none⟩).2 = []) ∧
    ((worker_process_item ⟨fun _ => ⟨none, false, none, none⟩, fun _ => false⟩
        (some emptyDedupStore) ⟨"badlink", ["t1"], none⟩).1 = some emptyDedupStore) :=
  ⟨by decide,
   (c3_no_ledger_writes ⟨fun _ => ⟨none, false, none, none⟩, fun _ => false⟩
     (some emptyDedupStore) ⟨"badlink", ["t1"], none⟩).2 (by decide)⟩

/-- Claim C5 counterexample: run.py's handler records the fingerprint of the
matching message text at filtering time — before any delivery exists. After
one handler run on a fresh store the processed_messages table already has one
row, although the handler performed no delivery and enqueued nothing (its
enqueue loop calls the nonexistent `queue.add_to_queue` and dies). -/
theorem c5_counterexample :
    ((run_handler ⟨false, ⟨["deal"], false, true⟩, some emptyDedupStore, true, ["t1"]⟩
        "great deal").1.map (fun st => st.processed.length) = some 1) ∧
    (run_handler ⟨false, ⟨["deal"], false, true⟩, some emptyDedupStore, true, ["t1"]⟩
        "great deal").2 = [] := by
  decide

/-- Claim C5 (amended): inside the forwarding queue, `_forward_message` writes
fingerprint records only after at least one successful delivery — with no
successful target the store is unchanged; however run.py's handler records the
raw message-text fingerprint at enqueue-filtering time, before any delivery
(see the counterexample). -/
theorem c5_fingerprint_only_after_delivery (dedup : Option DeduplicationStore) (env : ForwardEnv)
    (m : TgMessage) (targets : List String) (link : String)
    (h : (forward_message dedup env m targets link).2 = []) :
    (forward_message dedup env m targets link).1 = dedup := by
  cases dedup with
  | none => rfl
  | some st =>
    rw [forward_message_some_eq] at h ⊢
    split_ifs at h ⊢ with hd hs
    · rfl
    · rfl
    · exact absurd h (by simpa using hs)

theorem c5_fingerprint_only_after_delivery_witness :
    ((forward_message (some emptyDedupStore) ⟨fun _ => false⟩ ⟨some (MsgPeer.channel 5), 7⟩
        ["t1"] "LK").2 = []) ∧
    ((forward_message (some emptyDedupStore) ⟨fun _ => false⟩ ⟨some (MsgPeer.channel 5), 7⟩
        ["t1"] "LK").1 = some emptyDedupStore) :=
  ⟨by decide,
   c5_fingerprint_only_after_delivery (some emptyDedupStore) ⟨fun _ => false⟩
     ⟨some (MsgPeer.channel 5), 7⟩ ["t1"] "LK" (by decide)⟩

theorem retryStatus_cases (env : RetryEnv) (row : PendingForward) :
    retryStatus env row = "done" ∨ retryStatus env row = "join_failed" := by
  unfold retryStatus
  cases (env.fetch row.message_link).message <;> simp

theorem retryRowMap_id (env : RetryEnv) (now : Nat) (row r : PendingForward) :
    (retryRowMap env now row r).id = r.id := by
  unfold retryRowMap
  split <;> rfl

theorem retry_process_row_pf (env : RetryEnv) (now : Nat) (st : DeduplicationStore)
    (row : PendingForward) :
    (retry_process_row env now st row).pending_forwards =
      st.pending_forwards.map (retryRowMap env now row) := by
  cases hf : (env.fetch row.message_link).message with
  | none =>
    simp only [retry_process_row, hf, DeduplicationStore.update_pending_forward_status]
    refine List.map_congr_left ?_
    intro a _
    unfold retryRowMap retryStatus retryErr
    rw [hf]
  | some m =>
    obtain ⟨s, hs, hpend⟩ : ∃ s,
        (forward_message (some st) ⟨env.sendOk⟩ m env.targets row.message_link).1 = some s ∧
          s.pending_forwards = st.pending_forwards := by
      rw [forward_message_some_eq]
      split_ifs
      · exact ⟨st, rfl, rfl⟩
      · exact ⟨st, rfl, rfl⟩
      · exact ⟨_, rfl, by rw [add_message_pf, add_message_pf]⟩
    simp only [retry_process_row, hf, hs, DeduplicationStore.update_pending_forward_status, hpend]
    refine List.map_congr_left ?_
    intro a _
    unfold retryRowMap retryStatus retryErr
    rw [hf]

theorem retry_cycle_pf_aux (env : RetryEnv) (now : Nat) :
    ∀ (rows : List PendingForward) (st : DeduplicationStore),
      (rows.foldl (retry_process_row env now) st).pending_forwards =
        st.pending_forwards.map (fun r => rows.foldl (fun x row => retryRowMap env now row x) r) := by
  intro rows
  induction rows with
  | nil => intro st; simp
  | cons row rows ih =>
    intro st
    simp only [List.foldl_cons]
    rw [ih (retry_process_row env now st row), retry_process_row_pf, List.map_map]
    rfl

theorem bigF_id_of_fresh (env : RetryEnv) (now : Nat) :
    ∀ (rows : List PendingForward) (r : PendingForward),
      (∀ row ∈ rows, row.id ≠ r.id) →
      rows.foldl (fun x row => retryRowMap env now row x) r = r := by
  intro rows
  induction rows with
  | nil => intro r _; rfl
  | cons row rows ih =>
    intro r h
    simp only [List.foldl_cons]
    have h1 : retryRowMap env now row r = r := by
      unfold retryRowMap
      rw [if_neg]
      intro he
      exact (h row (List.mem_cons_self _ _)) he.symm
    rw [h1]
    exact ih r (fun a ha => h a (List.mem_cons_of_mem _ ha))

theorem bigF_id_pres (env : RetryEnv) (now : Nat) :
    ∀ (rows : List PendingForward) (r : PendingForward),
      (rows.foldl (fun x row => retryRowMap env now row x) r).id = r.id := by
  intro rows
  induction rows with
  | nil => intro r; rfl
  | cons row rows ih =>
    intro r
    simp only [List.foldl_cons]
    rw [ih]
    exact retryRowMap_id env now row r

theorem bigF_status (env : RetryEnv) (now : Nat) :
    ∀ (rows : List PendingForward) (r : PendingForward),
      rows.foldl (fun x row => retryRowMap env now row x) r = r ∨
      (rows.foldl (fun x row => retryRowMap env now row x) r).status = "done" ∨
      (rows.foldl (fun x row => retryRowMap env now row x) r).status = "join_failed" := by
  intro rows
  induction rows with
  | nil => intro r; exact Or.inl rfl
  | cons row rows ih =>
    intro r
    simp only [List.foldl_cons]
    by_cases hid : r.id = row.id
    · rcases ih (retryRowMap env now row r) with h | h | h
      · rw [h]
        unfold retryRowMap
        rw [if_pos hid]
        rcases retryStatus_cases env row with hs | hs
        · right; left; simpa using hs
        · right; right; simpa using hs
      · right; left; exact h
      · right; right; exact h
    · have h1 : retryRowMap env now row r = r := by
        unfold retryRowMap
        rw [if_neg hid]
      rw [h1]
      exact ih r

theorem bigF_single (env : RetryEnv) (now : Nat) (pre post : List PendingForward)
    (r : PendingForward) (hpre : ∀ a ∈ pre, a.id ≠ r.id) (hpost : ∀ b ∈ post, b.id ≠ r.id) :
    (pre ++ r :: post).foldl (fun x row => retryRowMap env now row x) r =
      { r with status := retryStatus env r, attempts := r.attempts + 1,
               last_try_at := some now, error_text := retryErr env r } := by
  rw [List.foldl_append, bigF_id_of_fresh env now pre r hpre]
  simp only [List.foldl_cons]
  have hr : retryRowMap env now r r =
      { r with status := retryStatus env r, attempts := r.attempts + 1,
               last_try_at := some now, error_text := retryErr env r } := by
    unfold retryRowMap
    rw [if_pos rfl]
  rw [hr]
  exact bigF_id_of_fresh env now post _ (fun b hb => hpost b hb)

/-- Claim C6 (amended): in every retry cycle, a row whose status is DONE is
never modified; every row the cycle modifies ends with status done or
join_failed — never back to waiting_approval; and a selected waiting row whose
fetch yields no message is set to join_failed with attempts incremented (on
this code that happens for every failed fetch, in particular on the attempt
that reaches the configured maximum; a row whose final attempt succeeds is set
to done instead, see the counterexample). -/
theorem c6_retry_cycle_statuses (env : RetryEnv) (st : DeduplicationStore)
    (limit maxAttempts now : Nat)
    (hids : (st.pending_forwards.map (fun r => r.id)).Nodup) :
    ∀ r2 ∈ (retry_cycle env st limit maxAttempts now).pending_forwards,
    ∀ r ∈ st.pending_forwards, r2.id = r.id →
      (r.status = "done" → r2 = r) ∧
      (r2 = r ∨ r2.status = "done" ∨ r2.status = "join_failed") ∧
      (r ∈ st.get_pending_forwards_for_retry limit maxAttempts →
        (env.fetch r.message_link).message = none →
        r2.status = "join_failed" ∧ r2.attempts = r.attempts + 1) := by
  intro r2 hr2 r hr hid
  unfold retry_cycle at hr2
  rw [retry_cycle_pf_aux] at hr2
  obtain ⟨r0, hr0, heq⟩ := List.mem_map.mp hr2
  have hid0 : r0.id = r.id := by
    have hp := bigF_id_pres env now (st.get_pending_forwards_for_retry limit maxAttempts) r0
    rw [heq] at hp
    rw [← hp]
    exact hid
  have hr0r : r0 = r := List.inj_on_of_nodup_map hids hr0 hr hid0
  rw [hr0r] at heq
  refine ⟨?_, ?_, ?_⟩
  · intro hdone
    have hfresh : ∀ row ∈ st.get_pending_forwards_for_retry limit maxAttempts, row.id ≠ r.id := by
      intro row hrow he
      have hspec := selection_spec st limit maxAttempts row hrow
      have hrr : row = r := List.inj_on_of_nodup_map hids hspec.1 hr he
      rw [hrr] at hspec
      have : ("done" : String) = "waiting_approval" := hdone ▸ hspec.2.1
      exact absurd this (by decide)
    rw [← heq, bigF_id_of_fresh env now _ r hfresh]
  · rw [← heq]
    exact bigF_status env now _ r
  · intro hsel hfetch
    have hrowsnodup :
        ((st.get_pending_forwards_for_retry limit maxAttempts).map (fun x => x.id)).Nodup := by
      unfold DeduplicationStore.get_pending_forwards_for_retry
      have hfil : ((st.pending_forwards.filter
          (fun r => r.status = "waiting_approval" && r.attempts < maxAttempts)).map
            (fun x => x.id)).Nodup :=
        List.Nodup.sublist (List.Sublist.map _ (List.filter_sublist _)) hids
      have hsort := ((List.perm_insertionSort retryLe
        (st.pending_forwards.filter
          (fun r => r.status = "waiting_approval" && r.attempts < maxAttempts))).map
            (fun x => x.id)).nodup_iff.mpr hfil
      exact List.Nodup.sublist (List.Sublist.map _ (List.take_sublist _ _)) hsort
    obtain ⟨pre, post, hsplit⟩ := List.append_of_mem hsel
    rw [hsplit] at hrowsnodup
    rw [List.map_append, List.map_cons] at hrowsnodup
    have hnd := List.nodup_middle.mp hrowsnodup
    have hnotmem := (List.nodup_cons.mp hnd).1
    have hpre : ∀ a ∈ pre, a.id ≠ r.id := by
      intro a ha he
      exact hnotmem (List.mem_append_left _ (he ▸ List.mem_map_of_mem (fun x => x.id) ha))
    have hpost : ∀ b ∈ post, b.id ≠ r.id := by
      intro b hb he
      exact hnotmem (List.mem_append_right _ (he ▸ List.mem_map_of_mem (fun x => x.id) hb))
    rw [hsplit, bigF_single env now pre post r hpre hpost] at heq
    rw [← heq]
    constructor
    · show retryStatus env r = "join_failed"
      unfold retryStatus
      rw [hfetch]
    · rfl

/-- Claim C6 counterexample: a waiting_approval row with attempts = 0 and
max_attempts = 1 whose retry fetch and delivery succeed: its attempts counter
reaches the configured maximum (1) in that cycle, yet the cycle sets status
"done", not JOIN_FAILED as the claim states. -/
theorem c6_counterexample :
    (retry_cycle
        ⟨fun _ => ⟨some ⟨some (MsgPeer.channel 5), 7⟩, false, none, some 7⟩, fun _ => true, ["t1"]⟩
        ⟨[], [⟨1, "ML", "CL", "waiting_approval", 0, 0, none, none⟩], 2, []⟩
        25 1 9).pending_forwards.map (fun r => (r.id, r.status, r.attempts)) =
      [(1, "done", 1)] := by
  decide

theorem c6_retry_cycle_statuses_witness :
    ((([⟨1, "ML", "CL", "waiting_approval", 0, 0, none, none⟩] : List PendingForward).map
        (fun r => r.id)).Nodup) ∧
    ((⟨1, "ML", "CL", "join_failed", 1, 0, some 9, some "AttributeError: needs_join"⟩ :
        PendingForward) = ⟨1, "ML", "CL", "waiting_approval", 0, 0, none, none⟩ ∨
      (⟨1, "ML", "CL", "join_failed", 1, 0, some 9, some "AttributeError: needs_join"⟩ :
        PendingForward).status = "done" ∨
      (⟨1, "ML", "CL", "join_failed", 1, 0, some 9, some "AttributeError: needs_join"⟩ :
        PendingForward).status = "join_failed") :=
  ⟨by decide,
   (c6_retry_cycle_statuses
      ⟨fun _ => ⟨none, false, none, none⟩, fun _ => true, ["t1"]⟩
      ⟨[], [⟨1, "ML", "CL", "waiting_approval", 0, 0, none, none⟩], 2, []⟩
      25 1 9 (by decide)
      ⟨1, "ML", "CL", "join_failed", 1, 0, some 9, some "AttributeError: needs_join"⟩ (by decide)
      ⟨1, "ML", "CL", "waiting_approval", 0, 0, none, none⟩ (by decide) (by decide)).2.1⟩

theorem isWordChar_of_digit (c : Char) (h : c.isDigit = true) : isWordChar c = true := by
  simp [isWordChar, Char.isAlphanum, h]

theorem takeWhile_append_stop (p : Char → Bool) :
    ∀ (xs : List Char) (y : Char) (ys : List Char),
      (∀ x ∈ xs, p x = true) → p y = false →
      ((xs ++ y :: ys).takeWhile p = xs ∧ (xs ++ y :: ys).dropWhile p = y :: ys) := by
  intro xs
  induction xs with
  | nil =>
    intro y ys _ hy
    simp [List.takeWhile_cons, List.dropWhile_cons, hy]
  | cons x xs ih =>
    intro y ys hxs hy
    have hx : p x = true := hxs x (List.mem_cons_self _ _)
    have hr := ih y ys (fun a ha => hxs a (List.mem_cons_of_mem _ ha)) hy
    simp [List.takeWhile_cons, List.dropWhile_cons, hx, hr.1, hr.2]

theorem takeWhile_all (p : Char → Bool) :
    ∀ xs : List Char, (∀ x ∈ xs, p x = true) → xs.takeWhile p = xs := by
  intro xs
  induction xs with
  | nil => intro; rfl
  | cons x xs ih =>
    intro h
    simp [List.takeWhile_cons, h x (List.mem_cons_self _ _),
      ih (fun a ha => h a (List.mem_cons_of_mem _ ha))]

theorem pyDigitsRest_all (l : List Char) (h : ∀ c ∈ l, c.isDigit = true) :
    pyDigitsRest l = true := by
  induction l with
  | nil => rfl
  | cons c cs ih =>
    have hc : c.isDigit = true := h c (List.mem_cons_self _ _)
    have hcne : ¬(c = '_') := by
      intro he
      rw [he] at hc
      exact absurd hc (by decide)
    rw [pyDigitsRest.eq_def]
    simp only [if_neg hcne, hc, ih (fun a ha => h a (List.mem_cons_of_mem _ ha))]
    rfl

theorem filter_ne_underscore (l : List Char) (h : ∀ c ∈ l, c.isDigit = true) :
    l.filter (fun c => c != '_') = l := by
  apply List.filter_eq_self.mpr
  intro a ha
  have hd := h a ha
  simp only [bne_iff_ne, ne_eq]
  intro he
  rw [he] at hd
  exact absurd hd (by decide)

/-- Claim C9 (amended): for every link of the private-channel form with the
host the regex actually requires — `https://t.me/c/<digits>/<seq>` with both
groups nonempty ASCII digit strings — the parser returns the numeric peer
`int("-100" + digits)` and the message sequence number; a link that does not
match the pattern (for example any other host, such as example.test) yields an
empty result; but a matching private-form link whose channel part contains
non-digit word characters makes the int conversion raise, so "never an error"
does not hold in general (see the counterexample). -/
theorem c9_private_link_parse (ds ms : List Char) (hds : ds ≠ [])
    (hds2 : ∀ c ∈ ds, c.isDigit = true) (hms : ms ≠ [])
    (hms2 : ∀ c ∈ ms, c.isDigit = true) :
    parse_telegram_link (String.mk
      ('h' :: 't' :: 't' :: 'p' :: 's' :: ':' :: '/' :: '/' :: 't' :: '.' :: 'm' :: 'e' ::
        '/' :: 'c' :: '/' :: (ds ++ '/' :: ms))) =
    Except.ok (some (PeerRef.chanId (-(Int.ofNat (digitsVal ('1' :: '0' :: '0' :: ds)))),
      digitsVal ms)) := by
  have hw : ∀ x ∈ ds, isWordChar x = true := fun x hx => isWordChar_of_digit x (hds2 x hx)
  have hsl : isWordChar '/' = false := by decide
  have htw := takeWhile_append_stop isWordChar ds '/' ms hw hsl
  have hdsne : ds.isEmpty = false := by
    cases ds with
    | nil => exact absurd rfl hds
    | cons a l => rfl
  have hmsne : ms.isEmpty = false := by
    cases ms with
    | nil => exact absurd rfl hms
    | cons a l => rfl
  have hbody : matchLinkBody true (ds ++ '/' :: ms) = some ⟨true, ds, ms⟩ := by
    unfold matchLinkBody
    rw [htw.1, htw.2]
    simp [hdsne, takeWhile_all Char.isDigit ms hms2, hmsne]
  have htail : matchLinkTail ('c' :: '/' :: (ds ++ '/' :: ms)) = some ⟨true, ds, ms⟩ := by
    unfold matchLinkTail
    simp [eatLit, hbody]
  have hat : matchLinkAt
      ('h' :: 't' :: 't' :: 'p' :: 's' :: ':' :: '/' :: '/' :: 't' :: '.' :: 'm' :: 'e' ::
        '/' :: 'c' :: '/' :: (ds ++ '/' :: ms)) = some ⟨true, ds, ms⟩ := by
    unfold matchLinkAt
    simp [eatLit, htail]
  have hsearch : searchLink
      ('h' :: 't' :: 't' :: 'p' :: 's' :: ':' :: '/' :: '/' :: 't' :: '.' :: 'm' :: 'e' ::
        '/' :: 'c' :: '/' :: (ds ++ '/' :: ms)) = some ⟨true, ds, ms⟩ := by
    unfold searchLink
    rw [hat]
  have hall : ∀ c ∈ ('1' :: '0' :: '0' :: ds), c.isDigit = true := by
    intro c hc
    rcases List.mem_cons.mp hc with h1 | hc
    · rw [h1]; decide
    rcases List.mem_cons.mp hc with h1 | hc
    · rw [h1]; decide
    rcases List.mem_cons.mp hc with h1 | hc
    · rw [h1]; decide
    · exact hds2 c hc
  have hok : pyDigitsOk ('1' :: '0' :: '0' :: ds) = true := by
    have : pyDigitsRest ('0' :: '0' :: ds) = true :=
      pyDigitsRest_all _ (fun a ha => hall a (List.mem_cons_of_mem _ ha))
    simp [pyDigitsOk, this]
  have hpy : pyIntOfString (String.mk ('-' :: '1' :: '0' :: '0' :: ds)) =
      some (-(Int.ofNat (digitsVal ('1' :: '0' :: '0' :: ds)))) := by
    unfold pyIntOfString
    simp [hok, filter_ne_underscore _ hall]
  unfold parse_telegram_link
  rw [show (String.mk
      ('h' :: 't' :: 't' :: 'p' :: 's' :: ':' :: '/' :: '/' :: 't' :: '.' :: 'm' :: 'e' ::
        '/' :: 'c' :: '/' :: (ds ++ '/' :: ms))).data =
      ('h' :: 't' :: 't' :: 'p' :: 's' :: ':' :: '/' :: '/' :: 't' :: '.' :: 'm' :: 'e' ::
        '/' :: 'c' :: '/' :: (ds ++ '/' :: ms)) from rfl]
  rw [hsearch]
  simp [hpy]

theorem c9_private_link_parse_witness :
    ((['1', '2', '3', '4', '5'] : List Char) ≠ []) ∧
    (∀ c ∈ (['1', '2', '3', '4', '5'] : List Char), c.isDigit = true) ∧
    ((['4', '2'] : List Char) ≠ []) ∧
    (∀ c ∈ (['4', '2'] : List Char), c.isDigit = true) ∧
    parse_telegram_link "https://t.me/c/12345/42" =
      Except.ok (some (PeerRef.chanId (-10012345), 42)) :=
  ⟨by decide, by decide, by decide, by decide, by
    have h := c9_private_link_parse ['1', '2', '3', '4', '5'] ['4', '2']
      (by decide) (by decide) (by decide) (by decide)
    exact h⟩

/-- Claim C9 counterexample: the claim names `https://example.test/c/12345/42`
as parsing to channelRef -10012345, but the regex requires host t.me, so the
parser returns an empty result on it; and the claim says malformed links never
yield an error, but `https://t.me/c/abc/5` matches the private form with a
non-numeric channel group, so `int("-100abc")` raises ValueError. -/
theorem c9_counterexample :
    parse_telegram_link "https://example.test/c/12345/42" = Except.ok none ∧
    parse_telegram_link "https://t.me/c/abc/5" = Except.error "ValueError" := by
  exact ⟨by decide, by decide⟩
